import Mathlib

/-!
A shallow embedding of the trading-bot repository (TypeScript) in Lean 4.

Numbers in the source are JS numbers; we model them as exact rationals `ℚ`
(the usual idealisation), with `ℝ` only where the source calls `Math.sqrt`.
JS `Record`/`Map` objects are modelled as association lists, preserving
insertion order (which is JS iteration order for string keys).
Each definition mirrors one function of the source; the source file and
function are named in its doc comment.
-/

/-- `Asset` from src/types.ts. -/
structure Asset where
  symbol : String
  price : ℚ
  holdings : ℚ
deriving Repr, DecidableEq

/-- `Portfolio` from src/types.ts: `cash` plus `assets: Record<string, Asset>`
(modelled as an insertion-ordered association list). -/
structure Portfolio where
  cash : ℚ
  assets : List (String × Asset)
deriving Repr, DecidableEq

/-- Trade side, from the `'BUY' | 'SELL'` union in src/types.ts. -/
inductive Side where
  | buy
  | sell
deriving Repr, DecidableEq

/-- `Trade` from src/types.ts. -/
structure Trade where
  symbol : String
  side : Side
  quantity : ℚ
  price : ℚ
  timestamp : ℤ
deriving Repr, DecidableEq

/-- `PriceUpdate` from src/types.ts. -/
structure PriceUpdate where
  symbol : String
  price : ℚ
  timestamp : ℤ
deriving Repr, DecidableEq

/-- `RiskLimits` from src/types.ts. -/
structure RiskLimits where
  maxPositionSize : ℚ
  maxDailyLoss : ℚ
  maxTradeSize : ℚ
deriving Repr, DecidableEq

/-- `StrategyConfig` from src/types.ts. -/
structure StrategyConfig where
  dropThreshold : ℚ
  riseThreshold : ℚ
  buyPercentage : ℚ
  sellPercentage : ℚ
  twapSlices : ℚ
  twapInterval : ℚ
deriving Repr, DecidableEq

/-- The diagnostic `reason` string of a signal.  The source formats
`priceChange` with floating-point `toFixed(2)`; we keep the structured
content (which branch fired and the exact change) instead of the decimal
rendering. -/
inductive Reason where
  | dropped (priceChange : ℚ)
  | rose (priceChange : ℚ)
deriving Repr, DecidableEq

/-- `TradeSignal` from src/strategy.ts. -/
structure TradeSignal where
  symbol : String
  action : Side
  percentage : ℚ
  reason : Reason
deriving Repr, DecidableEq

/-- Association-list lookup, modelling `Map.get` / `Record` access by key. -/
def alookup (l : List (String × α)) (k : String) : Option α :=
  (l.find? (fun kv => kv.1 == k)).map (·.2)

/-- `Map.set` / keyed `Record` write: overwrite the (unique) entry with
this key when present, else append (JS insertion order). -/
def aset (l : List (String × α)) (k : String) (v : α) : List (String × α) :=
  match l with
  | [] => [(k, v)]
  | kv :: rest => if kv.1 == k then (k, v) :: rest else kv :: aset rest k v

/-- Per-symbol mutable state of `DropRiseStrategy` (src/strategy.ts):
`priceHistory: Map<string, number[]>` and `initialPrices: Map<string, number>`. -/
structure StrategyState where
  priceHistory : List (String × List ℚ)
  initialPrices : List (String × ℚ)
deriving Repr, DecidableEq

/-- The strategy's state at construction: both maps empty. -/
def StrategyState.init : StrategyState := ⟨[], []⟩

namespace DropRiseStrategy

/-- `DropRiseStrategy.onUpdate` (src/strategy.ts lines 32-67), as a pure
state transformer: returns the optional signal and the updated state. -/
def onUpdate (cfg : StrategyConfig) (st : StrategyState) (update : PriceUpdate) :
    Option TradeSignal × StrategyState :=
  let symbol := update.symbol
  let price := update.price
  match alookup st.initialPrices symbol with
  | none =>
      (none,
       { priceHistory := aset st.priceHistory symbol [price],
         initialPrices := aset st.initialPrices symbol price })
  | some initialPrice =>
      let history := (alookup st.priceHistory symbol).getD []
      let history := history ++ [price]
      let history := if history.length > 100 then history.tail else history
      let st' : StrategyState :=
        { st with priceHistory := aset st.priceHistory symbol history }
      let priceChange := (price - initialPrice) / initialPrice
      if priceChange ≤ -cfg.dropThreshold then
        (some { symbol := symbol, action := Side.buy,
                percentage := cfg.buyPercentage,
                reason := Reason.dropped priceChange }, st')
      else if priceChange ≥ cfg.riseThreshold then
        (some { symbol := symbol, action := Side.sell,
                percentage := cfg.sellPercentage,
                reason := Reason.rose priceChange }, st')
      else
        (none, st')

/-- Fold a list of price updates through `onUpdate`, discarding signals:
the state reached by a sequence of observations. -/
def foldUpdates (cfg : StrategyConfig) (st : StrategyState)
    (updates : List PriceUpdate) : StrategyState :=
  updates.foldl (fun s u => (onUpdate cfg s u).2) st

end DropRiseStrategy

/-! ## The backtesting engine (src/backtesting.ts, the unnamed source file) -/

/-- The engine's mutable state during a run: `this.portfolio` and
`this.trades` of `BacktestingEngine`. -/
structure EngineState where
  portfolio : Portfolio
  trades : List Trade
deriving Repr, DecidableEq

namespace BacktestingEngine

/-- `BacktestingEngine.riskCheck`: pure predicate on limits, symbol,
quantity and price; the symbol parameter is accepted but never read,
exactly as in the source. -/
def riskCheck (limits : RiskLimits) (symbol : String) (quantity price : ℚ) : Bool :=
  decide (quantity * price ≤ limits.maxTradeSize) &&
  decide (quantity ≤ limits.maxPositionSize)

/-- `BacktestingEngine.calculateTotalValue`: cash plus holdings×price summed
over the portfolio's own assets.  The `update` parameter is accepted but
never read, exactly as in the source. -/
def calculateTotalValue (p : Portfolio) (update : Option PriceUpdate) : ℚ :=
  p.assets.foldl (fun total kv => total + kv.2.holdings * kv.2.price) p.cash

/-- `BacktestingEngine.calculateInitialValue`: identical body to
`calculateTotalValue`, reading `this.portfolio` at the moment of the call. -/
def calculateInitialValue (p : Portfolio) : ℚ :=
  p.assets.foldl (fun total kv => total + kv.2.holdings * kv.2.price) p.cash

/-- Overwrite the holdings field of the asset stored under key `s`
(the in-place `asset.holdings` mutation of the source: the object found
under the key is mutated; nothing is created when the key is absent). -/
def setAssetsHoldings (s : String) (h : ℚ) : List (String × Asset) → List (String × Asset)
  | [] => []
  | kv :: rest =>
      if kv.1 == s then (kv.1, { kv.2 with holdings := h }) :: rest
      else kv :: setAssetsHoldings s h rest

/-- `setAssetsHoldings` lifted to the portfolio. -/
def setHoldings (p : Portfolio) (s : String) (h : ℚ) : Portfolio :=
  { p with assets := setAssetsHoldings s h p.assets }

/-- The holdings currently recorded under key `s` (0 when absent: the
engine only calls this when the lookup succeeded). -/
def holdingsOf (p : Portfolio) (s : String) : ℚ :=
  ((alookup p.assets s).map (·.holdings)).getD 0

/-- Observation of the portfolio's price data: each entry's key with its
asset's symbol and price fields (holdings and cash excluded). -/
def assetPrices (p : Portfolio) : List (String × String × ℚ) :=
  p.assets.map fun kv => (kv.1, kv.2.symbol, kv.2.price)

/-- The `for (let i = 0; i < 5; i++)` loop body of
`BacktestingEngine.executeBuy`, with explicit fuel (iterations left) and
the loop index `i`.  Breaks when cash is below the slice notional;
otherwise converts the slice notional to a quantity at the update price,
risk-checks it, and on pass debits cash, credits holdings and records a
trade stamped `timestamp + i·60000`. -/
def buySlices (limits : RiskLimits) (symbol : String) (sliceAmount price : ℚ)
    (timestamp : ℤ) : ℕ → ℕ → EngineState → EngineState
  | 0, _, st => st
  | n + 1, i, st =>
      if st.portfolio.cash < sliceAmount then st
      else
        let quantity := sliceAmount / price
        let st' :=
          if riskCheck limits symbol quantity price then
            { portfolio :=
                setHoldings
                  { st.portfolio with cash := st.portfolio.cash - sliceAmount }
                  symbol (holdingsOf st.portfolio symbol + quantity),
              trades := st.trades ++
                [{ symbol := symbol, side := Side.buy, quantity := quantity,
                   price := price, timestamp := timestamp + (i : ℤ) * 60000 }] }
          else st
        buySlices limits symbol sliceAmount price timestamp n (i + 1) st'

/-- `BacktestingEngine.executeBuy`: drop the signal when the portfolio has
no entry for the symbol; otherwise slice `portfolioValue × percentage`
into 5 equal notionals and run the slice loop. -/
def executeBuy (limits : RiskLimits) (signal : TradeSignal) (update : PriceUpdate)
    (st : EngineState) : EngineState :=
  match alookup st.portfolio.assets signal.symbol with
  | none => st
  | some _ =>
      let portfolioValue := calculateTotalValue st.portfolio (some update)
      let buyAmount := portfolioValue * signal.percentage
      let sliceAmount := buyAmount / 5
      buySlices limits signal.symbol sliceAmount update.price update.timestamp 5 0 st

/-- The `for (let i = 0; i < 5; i++)` loop body of
`BacktestingEngine.executeSell`: per slice, quantity is
`min(sliceQuantity, current holdings)`; when positive and risk-checked,
holdings are debited and cash credited by quantity×price. -/
def sellSlices (limits : RiskLimits) (symbol : String) (sliceQuantity price : ℚ)
    (timestamp : ℤ) : ℕ → ℕ → EngineState → EngineState
  | 0, _, st => st
  | n + 1, i, st =>
      let holdings := holdingsOf st.portfolio symbol
      let quantity := min sliceQuantity holdings
      let st' :=
        if 0 < quantity ∧ riskCheck limits symbol quantity price = true then
          { portfolio :=
              setHoldings
                { st.portfolio with cash := st.portfolio.cash + quantity * price }
                symbol (holdings - quantity),
            trades := st.trades ++
              [{ symbol := symbol, side := Side.sell, quantity := quantity,
                 price := price, timestamp := timestamp + (i : ℤ) * 60000 }] }
        else st
      sellSlices limits symbol sliceQuantity price timestamp n (i + 1) st'

/-- `BacktestingEngine.executeSell`: drop the signal when the portfolio has
no entry for the symbol or holdings ≤ 0; otherwise slice
`holdings × percentage` into 5 equal quantities and run the slice loop. -/
def executeSell (limits : RiskLimits) (signal : TradeSignal) (update : PriceUpdate)
    (st : EngineState) : EngineState :=
  match alookup st.portfolio.assets signal.symbol with
  | none => st
  | some asset =>
      if asset.holdings ≤ 0 then st
      else
        let sellQuantity := asset.holdings * signal.percentage
        let sliceQuantity := sellQuantity / 5
        sellSlices limits signal.symbol sliceQuantity update.price update.timestamp 5 0 st

/-- State threaded through a backtest run: the strategy's maps plus the
engine's portfolio and trade log. -/
structure BacktestState where
  strat : StrategyState
  engine : EngineState
deriving Repr, DecidableEq

/-- `BacktestingEngine.processUpdate`: feed the update to the strategy and
dispatch the signal (if any) to the BUY or SELL execution path. -/
def processUpdate (cfg : StrategyConfig) (limits : RiskLimits)
    (s : BacktestState) (u : PriceUpdate) : BacktestState :=
  let (sig, strat') := DropRiseStrategy.onUpdate cfg s.strat u
  match sig with
  | none => { s with strat := strat' }
  | some signal =>
      if signal.action = Side.buy then
        { strat := strat', engine := executeBuy limits signal u s.engine }
      else
        { strat := strat', engine := executeSell limits signal u s.engine }

/-- The literal `StrategyConfig` that `BacktestingEngine.run` passes to
`strategy.initialize` (src/backtesting.ts lines 178-185). -/
def backtestConfig : StrategyConfig :=
  { dropThreshold := 5/100, riseThreshold := 10/100,
    buyPercentage := 10/100, sellPercentage := 20/100,
    twapSlices := 5, twapInterval := 60000 }

/-- The state-evolution core of `BacktestingEngine.run`: construct the
engine on (a deep copy of) the initial portfolio and fold the price
stream through `processUpdate`. -/
def runCore (limits : RiskLimits) (initialPortfolio : Portfolio)
    (priceData : List PriceUpdate) : BacktestState :=
  priceData.foldl (processUpdate backtestConfig limits)
    { strat := StrategyState.init,
      engine := { portfolio := initialPortfolio, trades := [] } }

/-! ### Performance analyzer -/

/-- Portfolio value with the traded asset's valuation substituted by the
trade's price, the inner loop shared by `calculateReturns` and
`calculateMaxDrawdown`: other assets use their stored price. -/
def valueAtTrade (p : Portfolio) (t : Trade) : ℚ :=
  p.assets.foldl
    (fun total kv =>
      total + kv.2.holdings * (if kv.2.symbol == t.symbol then t.price else kv.2.price))
    p.cash

/-- `BacktestingEngine.calculateReturns`: per-trade return series against
the portfolio as it stands when called (the final portfolio), skipping
steps whose previous value is 0. -/
def calculateReturns (p : Portfolio) (trades : List Trade) : List ℚ :=
  (trades.foldl
    (fun (acc : List ℚ × ℚ) t =>
      let value := valueAtTrade p t
      let acc' := if acc.2 ≠ 0 then acc.1 ++ [(value - acc.2) / acc.2] else acc.1
      (acc', value))
    ([], calculateInitialValue p)).1

/-- Mean of the return series: `returns.reduce(...)/returns.length`
(exact rational; the JS `0/0` on an empty series is idealised to 0). -/
def avgReturn (returns : List ℚ) : ℚ :=
  returns.sum / returns.length

/-- The variance the source takes `Math.sqrt` of:
`Σ (r − avg)² / returns.length`. -/
def returnsVariance (returns : List ℚ) : ℚ :=
  ((returns.map (fun r => (r - avgReturn returns) ^ 2)).sum : ℚ) / returns.length

/-- `BacktestingEngine.calculateSharpeRatio`: 0 for fewer than 2 trades;
else `avg/stdDev · √252` when the standard deviation is nonzero, 0
otherwise.  `Math.sqrt` is the real square root, so the value lives in ℝ. -/
noncomputable def calculateSharpeRatio (p : Portfolio) (trades : List Trade) : ℝ :=
  if trades.length < 2 then 0
  else
    let returns := calculateReturns p trades
    let stdDev : ℝ := Real.sqrt (returnsVariance returns : ℝ)
    if stdDev ≠ 0 then ((avgReturn returns : ℝ) / stdDev) * Real.sqrt 252 else 0

/-- `BacktestingEngine.calculateMaxDrawdown`: running peak over the
trade-indexed value series (seeded by the initial-value formula on the
final portfolio), maximum of `(peak−value)/peak·100`. -/
def calculateMaxDrawdown (p : Portfolio) (trades : List Trade) : ℚ :=
  let values := trades.map (valueAtTrade p)
  (values.foldl
    (fun (acc : ℚ × ℚ) value =>
      let peak := if value > acc.2 then value else acc.2
      let drawdown := ((peak - value) / peak) * 100
      (if drawdown > acc.1 then drawdown else acc.1, peak))
    (0, calculateInitialValue p)).1

/-- `BacktestResult` from src/types.ts. -/
structure BacktestResult where
  trades : List Trade
  finalPortfolio : Portfolio
  totalReturn : ℚ
  sharpeRatio : ℝ
  maxDrawdown : ℚ

/-- `BacktestingEngine.run` on a constructed engine state: fold the price
stream, then assemble the result exactly as the source does (total value
at the last update — an argument `calculateTotalValue` ignores — initial
value recomputed on the final portfolio, Sharpe and drawdown from the
final portfolio and trade log). -/
noncomputable def runBacktest (limits : RiskLimits) (initialPortfolio : Portfolio)
    (priceData : List PriceUpdate) : BacktestResult :=
  let s := runCore limits initialPortfolio priceData
  let totalValue := calculateTotalValue s.engine.portfolio priceData.getLast?
  let initialValue := calculateInitialValue s.engine.portfolio
  { trades := s.engine.trades,
    finalPortfolio := s.engine.portfolio,
    totalReturn := ((totalValue - initialValue) / initialValue) * 100,
    sharpeRatio := calculateSharpeRatio s.engine.portfolio s.engine.trades,
    maxDrawdown := calculateMaxDrawdown s.engine.portfolio s.engine.trades }

end BacktestingEngine

/-! ### Reference-semantics model for the constructor's deep copy

`BacktestingEngine`'s constructor runs
`this.portfolio = JSON.parse(JSON.stringify(initialPortfolio))`: a fresh
object with the same value, not an alias of the caller's object.  To make
the aliasing content of that line statable we model portfolio objects on a
small heap (a list of `Portfolio` values addressed by index).  The
constructor allocates a fresh cell holding the JSON round-trip of the
caller's cell; every portfolio mutation of the run writes through the
engine's own reference. -/

/-- A heap of portfolio objects; an object reference is an index. -/
abbrev Heap := List Portfolio

namespace BacktestingEngine

/-- `JSON.parse(JSON.stringify(p))` on our data model: rebuilds every
field of the portfolio and of each asset (JSON round-trip of plain data). -/
def jsonDeepCopy (p : Portfolio) : Portfolio :=
  { cash := p.cash,
    assets :=
      p.assets.map fun kv =>
        (kv.1,
         { symbol := kv.2.symbol, price := kv.2.price, holdings := kv.2.holdings }) }

/-- The constructor on the heap: read the caller's portfolio object and
allocate a fresh cell with its deep copy, returning the engine's
reference. -/
def constructOnHeap (h : Heap) (callerRef : ℕ) : Heap × ℕ :=
  (h ++ [jsonDeepCopy (h.getD callerRef { cash := 0, assets := [] })], h.length)

/-- One `processUpdate` step in the heap model: read the engine's
portfolio through its reference, run the pure step, write the mutated
portfolio back through the same reference. -/
def stepOnHeap (limits : RiskLimits) (engineRef : ℕ)
    (s : Heap × StrategyState × List Trade) (u : PriceUpdate) :
    Heap × StrategyState × List Trade :=
  let p := s.1.getD engineRef { cash := 0, assets := [] }
  let s' := processUpdate backtestConfig limits
    { strat := s.2.1, engine := { portfolio := p, trades := s.2.2 } } u
  (s.1.set engineRef s'.engine.portfolio, s'.strat, s'.engine.trades)

/-- `new BacktestingEngine(...)` followed by `run(priceData)` in the heap
model: construct (deep copy into a fresh cell), then fold the price
stream, every portfolio write going through the engine's reference. -/
def runOnHeap (limits : RiskLimits) (h : Heap) (callerRef : ℕ)
    (priceData : List PriceUpdate) : Heap × StrategyState × List Trade :=
  let (h1, engineRef) := constructOnHeap h callerRef
  priceData.foldl (stepOnHeap limits engineRef) (h1, StrategyState.init, [])

end BacktestingEngine

/-! ## Lemmas and claim theorems -/

theorem alookup_nil (k : String) : alookup ([] : List (String × α)) k = none := rfl

theorem alookup_cons (kv : String × α) (l : List (String × α)) (k : String) :
    alookup (kv :: l) k = if kv.1 == k then some kv.2 else alookup l k := by
  simp only [alookup, List.find?]
  cases h : kv.1 == k <;> simp [h]

theorem alookup_aset_self (l : List (String × α)) (k : String) (v : α) :
    alookup (aset l k v) k = some v := by
  induction l with
  | nil => simp [aset, alookup_cons]
  | cons kv rest ih =>
      by_cases h : kv.1 = k
      · simp [aset, h, alookup_cons]
      · have hb : (kv.1 == k) = false := by simp [h]
        simp [aset, hb, alookup_cons, ih]

theorem alookup_aset_ne (l : List (String × α)) (k k' : String) (v : α)
    (h : k' ≠ k) : alookup (aset l k v) k' = alookup l k' := by
  induction l with
  | nil =>
      have hb : (k == k') = false := by
        simp only [beq_eq_false_iff_ne, ne_eq]
        exact fun e => h e.symm
      simp [aset, alookup_cons, hb]
  | cons kv rest ih =>
      by_cases hk : kv.1 = k
      · have hb : (k == k') = false := by
          simp only [beq_eq_false_iff_ne, ne_eq]
          exact fun e => h e.symm
        simp [aset, hk, alookup_cons, hb]
      · have hb : (kv.1 == k) = false := by simp [hk]
        simp [aset, hb, alookup_cons, ih]

namespace DropRiseStrategy

theorem onUpdate_unseen (cfg : StrategyConfig) (st : StrategyState) (u : PriceUpdate)
    (h : alookup st.initialPrices u.symbol = none) :
    onUpdate cfg st u =
      (none,
       { priceHistory := aset st.priceHistory u.symbol [u.price],
         initialPrices := aset st.initialPrices u.symbol u.price }) := by
  simp [onUpdate, h]

theorem onUpdate_seen_fst (cfg : StrategyConfig) (st : StrategyState)
    (u : PriceUpdate) (p0 : ℚ) (h : alookup st.initialPrices u.symbol = some p0) :
    (onUpdate cfg st u).1 =
      (if (u.price - p0) / p0 ≤ -cfg.dropThreshold then
        some { symbol := u.symbol, action := Side.buy,
               percentage := cfg.buyPercentage,
               reason := Reason.dropped ((u.price - p0) / p0) }
      else if (u.price - p0) / p0 ≥ cfg.riseThreshold then
        some { symbol := u.symbol, action := Side.sell,
               percentage := cfg.sellPercentage,
               reason := Reason.rose ((u.price - p0) / p0) }
      else none) := by
  simp only [onUpdate, h]
  split_ifs <;> rfl

theorem onUpdate_seen_initialPrices (cfg : StrategyConfig) (st : StrategyState)
    (u : PriceUpdate) (p0 : ℚ) (h : alookup st.initialPrices u.symbol = some p0) :
    ((onUpdate cfg st u).2).initialPrices = st.initialPrices := by
  simp only [onUpdate, h]
  split_ifs <;> rfl

theorem onUpdate_initialPrice_preserved (cfg : StrategyConfig) (st : StrategyState)
    (u : PriceUpdate) (s : String) (p0 : ℚ)
    (h : alookup st.initialPrices s = some p0) :
    alookup ((onUpdate cfg st u).2).initialPrices s = some p0 := by
  cases hl : alookup st.initialPrices u.symbol with
  | none =>
      have hne : s ≠ u.symbol := by
        intro e
        rw [e, hl] at h
        cases h
      rw [onUpdate_unseen cfg st u hl]
      simpa [alookup_aset_ne _ _ _ _ hne] using h
  | some q =>
      rw [onUpdate_seen_initialPrices cfg st u q hl]
      exact h

theorem onUpdate_unseen_preserved (cfg : StrategyConfig) (st : StrategyState)
    (u : PriceUpdate) (s : String) (hne : u.symbol ≠ s)
    (h : alookup st.initialPrices s = none) :
    alookup ((onUpdate cfg st u).2).initialPrices s = none := by
  cases hl : alookup st.initialPrices u.symbol with
  | none =>
      rw [onUpdate_unseen cfg st u hl]
      simpa [alookup_aset_ne _ _ _ _ (Ne.symm hne)] using h
  | some q =>
      rw [onUpdate_seen_initialPrices cfg st u q hl]
      exact h

theorem foldUpdates_unseen (cfg : StrategyConfig) (us : List PriceUpdate)
    (s : String) (h : ∀ v ∈ us, v.symbol ≠ s) (st : StrategyState)
    (hst : alookup st.initialPrices s = none) :
    alookup (foldUpdates cfg st us).initialPrices s = none := by
  induction us generalizing st with
  | nil => exact hst
  | cons u rest ih =>
      have h1 := onUpdate_unseen_preserved cfg st u s (h u (by simp)) hst
      have h2 : foldUpdates cfg st (u :: rest) =
          foldUpdates cfg (onUpdate cfg st u).2 rest := by
        simp [foldUpdates]
      rw [h2]
      exact ih (fun v hv => h v (by simp [hv])) _ h1

/-- C4: for every update of a symbol after its first observation, with
`priceChange = (price − initialPrice)/initialPrice` computed against the
recorded reference price, `onUpdate` returns a BUY signal with
`percentage = buyPercentage` when `priceChange ≤ −dropThreshold`;
otherwise a SELL signal with `percentage = sellPercentage` when
`priceChange ≥ riseThreshold`; and no signal for every `priceChange`
strictly between `−dropThreshold` and `riseThreshold`. -/
theorem onUpdate_threshold_response (cfg : StrategyConfig) (st : StrategyState)
    (u : PriceUpdate) (p0 : ℚ)
    (h : alookup st.initialPrices u.symbol = some p0) :
    ((u.price - p0) / p0 ≤ -cfg.dropThreshold →
      (onUpdate cfg st u).1 =
        some { symbol := u.symbol, action := Side.buy,
               percentage := cfg.buyPercentage,
               reason := Reason.dropped ((u.price - p0) / p0) }) ∧
    (¬ (u.price - p0) / p0 ≤ -cfg.dropThreshold →
      (u.price - p0) / p0 ≥ cfg.riseThreshold →
      (onUpdate cfg st u).1 =
        some { symbol := u.symbol, action := Side.sell,
               percentage := cfg.sellPercentage,
               reason := Reason.rose ((u.price - p0) / p0) }) ∧
    (-cfg.dropThreshold < (u.price - p0) / p0 →
      (u.price - p0) / p0 < cfg.riseThreshold →
      (onUpdate cfg st u).1 = none) := by
  have hf := onUpdate_seen_fst cfg st u p0 h
  refine ⟨fun h1 => ?_, fun h1 h2 => ?_, fun h1 h2 => ?_⟩
  · rw [hf, if_pos h1]
  · rw [hf, if_neg h1, if_pos h2]
  · rw [hf, if_neg (not_le.mpr h1), if_neg (not_le.mpr h2)]

/-- Witness for C4: a symbol whose reference price is 100, observed at 94
(a 6% drop against a 5% threshold), fires the BUY signal with the
configured `buyPercentage`. -/
theorem onUpdate_threshold_response_witness :
    (onUpdate BacktestingEngine.backtestConfig
        { priceHistory := [("BTCUSDT", [100])], initialPrices := [("BTCUSDT", 100)] }
        { symbol := "BTCUSDT", price := 94, timestamp := 1 }).1 =
      some { symbol := "BTCUSDT", action := Side.buy,
             percentage := BacktestingEngine.backtestConfig.buyPercentage,
             reason := Reason.dropped (((94 : ℚ) - 100) / 100) } :=
  (onUpdate_threshold_response BacktestingEngine.backtestConfig
      { priceHistory := [("BTCUSDT", [100])], initialPrices := [("BTCUSDT", 100)] }
      { symbol := "BTCUSDT", price := 94, timestamp := 1 } 100 (by decide)).1
    (by norm_num [BacktestingEngine.backtestConfig])

/-- C5: the first `onUpdate` call that mentions a symbol (no earlier update
in the processed sequence carries it) returns no signal, records the
observed price as the symbol's reference price, and seeds the symbol's
price-history buffer with that single price. -/
theorem firstObservation_no_signal (cfg : StrategyConfig)
    (us : List PriceUpdate) (u : PriceUpdate)
    (h : ∀ v ∈ us, v.symbol ≠ u.symbol) :
    (onUpdate cfg (foldUpdates cfg StrategyState.init us) u).1 = none ∧
    alookup ((onUpdate cfg (foldUpdates cfg StrategyState.init us) u).2).initialPrices
        u.symbol = some u.price ∧
    alookup ((onUpdate cfg (foldUpdates cfg StrategyState.init us) u).2).priceHistory
        u.symbol = some [u.price] := by
  have hun : alookup (foldUpdates cfg StrategyState.init us).initialPrices u.symbol
      = none := foldUpdates_unseen cfg us u.symbol h StrategyState.init rfl
  rw [onUpdate_unseen cfg _ u hun]
  exact ⟨rfl, alookup_aset_self _ _ _, alookup_aset_self _ _ _⟩

/-- Witness for C5: after an ETHUSDT update, the first BTCUSDT update emits
nothing and records 100 as BTCUSDT's reference price and `[100]` as its
history. -/
theorem firstObservation_no_signal_witness :
    (onUpdate BacktestingEngine.backtestConfig
        (foldUpdates BacktestingEngine.backtestConfig StrategyState.init
          [{ symbol := "ETHUSDT", price := 2000, timestamp := 0 }])
        { symbol := "BTCUSDT", price := 100, timestamp := 1 }).1 = none ∧
    alookup ((onUpdate BacktestingEngine.backtestConfig
        (foldUpdates BacktestingEngine.backtestConfig StrategyState.init
          [{ symbol := "ETHUSDT", price := 2000, timestamp := 0 }])
        { symbol := "BTCUSDT", price := 100, timestamp := 1 }).2).initialPrices
      "BTCUSDT" = some 100 ∧
    alookup ((onUpdate BacktestingEngine.backtestConfig
        (foldUpdates BacktestingEngine.backtestConfig StrategyState.init
          [{ symbol := "ETHUSDT", price := 2000, timestamp := 0 }])
        { symbol := "BTCUSDT", price := 100, timestamp := 1 }).2).priceHistory
      "BTCUSDT" = some [100] :=
  firstObservation_no_signal BacktestingEngine.backtestConfig
    [{ symbol := "ETHUSDT", price := 2000, timestamp := 0 }]
    { symbol := "BTCUSDT", price := 100, timestamp := 1 } (by decide)

/-- C6: a symbol's reference price is never changed once recorded — any
further update leaves it intact — so two consecutive updates of the same
symbol that satisfy the same threshold inequality against that reference
price each produce the same signal (same action and same percentage): no
cooldown or hysteresis. -/
theorem referencePrice_immutable_refire (cfg : StrategyConfig)
    (st : StrategyState) (u1 u2 : PriceUpdate) (s : String) (p0 : ℚ)
    (h : alookup st.initialPrices s = some p0)
    (hs1 : u1.symbol = s) (hs2 : u2.symbol = s) :
    (∀ u : PriceUpdate, alookup ((onUpdate cfg st u).2).initialPrices s = some p0) ∧
    ((u1.price - p0) / p0 ≤ -cfg.dropThreshold →
      (u2.price - p0) / p0 ≤ -cfg.dropThreshold →
      (onUpdate cfg st u1).1 =
        some { symbol := s, action := Side.buy, percentage := cfg.buyPercentage,
               reason := Reason.dropped ((u1.price - p0) / p0) } ∧
      (onUpdate cfg (onUpdate cfg st u1).2 u2).1 =
        some { symbol := s, action := Side.buy, percentage := cfg.buyPercentage,
               reason := Reason.dropped ((u2.price - p0) / p0) }) ∧
    (¬ (u1.price - p0) / p0 ≤ -cfg.dropThreshold →
      (u1.price - p0) / p0 ≥ cfg.riseThreshold →
      ¬ (u2.price - p0) / p0 ≤ -cfg.dropThreshold →
      (u2.price - p0) / p0 ≥ cfg.riseThreshold →
      (onUpdate cfg st u1).1 =
        some { symbol := s, action := Side.sell, percentage := cfg.sellPercentage,
               reason := Reason.rose ((u1.price - p0) / p0) } ∧
      (onUpdate cfg (onUpdate cfg st u1).2 u2).1 =
        some { symbol := s, action := Side.sell, percentage := cfg.sellPercentage,
               reason := Reason.rose ((u2.price - p0) / p0) }) := by
  subst hs1
  have h2 : alookup ((onUpdate cfg st u1).2).initialPrices u2.symbol = some p0 := by
    rw [hs2]
    exact onUpdate_initialPrice_preserved cfg st u1 _ p0 h
  refine ⟨fun u => onUpdate_initialPrice_preserved cfg st u _ p0 h,
    fun hd1 hd2 => ?_, fun hn1 hr1 hn2 hr2 => ?_⟩
  · constructor
    · rw [onUpdate_seen_fst cfg st u1 p0 h, if_pos hd1]
    · rw [onUpdate_seen_fst cfg _ u2 p0 h2, if_pos hd2, hs2]
  · constructor
    · rw [onUpdate_seen_fst cfg st u1 p0 h, if_neg hn1, if_pos hr1]
    · rw [onUpdate_seen_fst cfg _ u2 p0 h2, if_neg hn2, if_pos hr2, hs2]

/-- Witness for C6: with reference price 100, consecutive updates at 94 and
93 each re-fire the BUY signal with the same percentage. -/
theorem referencePrice_immutable_refire_witness :
    (onUpdate BacktestingEngine.backtestConfig
        { priceHistory := [("BTCUSDT", [100])], initialPrices := [("BTCUSDT", 100)] }
        { symbol := "BTCUSDT", price := 94, timestamp := 1 }).1 =
      some { symbol := "BTCUSDT", action := Side.buy,
             percentage := BacktestingEngine.backtestConfig.buyPercentage,
             reason := Reason.dropped (((94 : ℚ) - 100) / 100) } ∧
    (onUpdate BacktestingEngine.backtestConfig
        (onUpdate BacktestingEngine.backtestConfig
          { priceHistory := [("BTCUSDT", [100])], initialPrices := [("BTCUSDT", 100)] }
          { symbol := "BTCUSDT", price := 94, timestamp := 1 }).2
        { symbol := "BTCUSDT", price := 93, timestamp := 2 }).1 =
      some { symbol := "BTCUSDT", action := Side.buy,
             percentage := BacktestingEngine.backtestConfig.buyPercentage,
             reason := Reason.dropped (((93 : ℚ) - 100) / 100) } :=
  (referencePrice_immutable_refire BacktestingEngine.backtestConfig
      { priceHistory := [("BTCUSDT", [100])], initialPrices := [("BTCUSDT", 100)] }
      { symbol := "BTCUSDT", price := 94, timestamp := 1 }
      { symbol := "BTCUSDT", price := 93, timestamp := 2 } "BTCUSDT" 100
      (by decide) rfl rfl).2.1
    (by norm_num [BacktestingEngine.backtestConfig])
    (by norm_num [BacktestingEngine.backtestConfig])

end DropRiseStrategy

namespace BacktestingEngine

theorem setHoldings_cash (p : Portfolio) (s : String) (h : ℚ) :
    (setHoldings p s h).cash = p.cash := rfl

theorem alookup_setAssetsHoldings_self (s : String) (h : ℚ)
    (l : List (String × Asset)) :
    alookup (setAssetsHoldings s h l) s =
      (alookup l s).map (fun a => { a with holdings := h }) := by
  induction l with
  | nil => rfl
  | cons kv rest ih =>
      by_cases hk : kv.1 = s
      · have hb : (kv.1 == s) = true := by simp [hk]
        simp [setAssetsHoldings, hb, alookup_cons]
      · have hb : (kv.1 == s) = false := by simp [hk]
        simp [setAssetsHoldings, hb, alookup_cons, ih]

theorem holdingsOf_setHoldings_of_some (p : Portfolio) (s : String) (h : ℚ)
    (a : Asset) (hl : alookup p.assets s = some a) :
    holdingsOf (setHoldings p s h) s = h := by
  simp [holdingsOf, setHoldings, alookup_setAssetsHoldings_self, hl]

theorem buySlices_cash_nonneg (limits : RiskLimits) (sym : String)
    (amt pr : ℚ) (ts : ℤ) :
    ∀ (n i : ℕ) (st : EngineState), 0 ≤ st.portfolio.cash →
      0 ≤ (buySlices limits sym amt pr ts n i st).portfolio.cash := by
  intro n
  induction n with
  | zero => exact fun i st h => h
  | succ n ih =>
      intro i st h
      simp only [buySlices]
      split_ifs with hc hr
      · exact h
      · exact ih (i + 1) _ (by
          show (0 : ℚ) ≤ st.portfolio.cash - amt
          have := not_lt.mp hc
          linarith)
      · exact ih (i + 1) st h

theorem sellSlices_holdings_nonneg (limits : RiskLimits) (sym : String)
    (sq pr : ℚ) (ts : ℤ) :
    ∀ (n i : ℕ) (st : EngineState), 0 ≤ holdingsOf st.portfolio sym →
      0 ≤ holdingsOf (sellSlices limits sym sq pr ts n i st).portfolio sym := by
  intro n
  induction n with
  | zero => exact fun i st h => h
  | succ n ih =>
      intro i st h
      simp only [sellSlices]
      split_ifs with hg
      · obtain ⟨hq, hrc⟩ := hg
        obtain ⟨a, hl⟩ : ∃ a, alookup st.portfolio.assets sym = some a := by
          cases hl : alookup st.portfolio.assets sym with
          | none =>
              exfalso
              have h0 : holdingsOf st.portfolio sym = 0 := by simp [holdingsOf, hl]
              rw [h0] at hq
              have := min_le_right sq (0 : ℚ)
              linarith
          | some a => exact ⟨a, rfl⟩
        apply ih
        rw [holdingsOf_setHoldings_of_some
          { cash := st.portfolio.cash + min sq (holdingsOf st.portfolio sym) * pr,
            assets := st.portfolio.assets } sym
          (holdingsOf st.portfolio sym - min sq (holdingsOf st.portfolio sym)) a hl]
        have := min_le_right sq (holdingsOf st.portfolio sym)
        linarith
      · exact ih (i + 1) st h

theorem buySlices_trades_length (limits : RiskLimits) (sym : String)
    (amt pr : ℚ) (ts : ℤ) :
    ∀ (n i : ℕ) (st : EngineState),
      (buySlices limits sym amt pr ts n i st).trades.length ≤ st.trades.length + n := by
  intro n
  induction n with
  | zero => intro i st; simp [buySlices]
  | succ n ih =>
      intro i st
      simp only [buySlices]
      split_ifs with hc hr
      · omega
      · have := ih (i + 1)
          { portfolio :=
              setHoldings { st.portfolio with cash := st.portfolio.cash - amt }
                sym (holdingsOf st.portfolio sym + amt / pr),
            trades := st.trades ++
              [{ symbol := sym, side := Side.buy, quantity := amt / pr,
                 price := pr, timestamp := ts + (i : ℤ) * 60000 }] }
        simp only [List.length_append, List.length_cons, List.length_nil] at this
        omega
      · have := ih (i + 1) st
        omega

theorem sellSlices_trades_length (limits : RiskLimits) (sym : String)
    (sq pr : ℚ) (ts : ℤ) :
    ∀ (n i : ℕ) (st : EngineState),
      (sellSlices limits sym sq pr ts n i st).trades.length ≤ st.trades.length + n := by
  intro n
  induction n with
  | zero => intro i st; simp [sellSlices]
  | succ n ih =>
      intro i st
      simp only [sellSlices]
      split_ifs with hg
      · have := ih (i + 1)
          { portfolio :=
              setHoldings
                { st.portfolio with
                  cash := st.portfolio.cash +
                    min sq (holdingsOf st.portfolio sym) * pr }
                sym (holdingsOf st.portfolio sym - min sq (holdingsOf st.portfolio sym)),
            trades := st.trades ++
              [{ symbol := sym, side := Side.sell,
                 quantity := min sq (holdingsOf st.portfolio sym),
                 price := pr, timestamp := ts + (i : ℤ) * 60000 }] }
        simp only [List.length_append, List.length_cons, List.length_nil] at this
        omega
      · have := ih (i + 1) st
        omega

theorem buySlices_trades_mem (limits : RiskLimits) (sym : String)
    (amt pr : ℚ) (ts : ℤ) :
    ∀ (n i : ℕ) (st : EngineState) (t : Trade),
      t ∈ (buySlices limits sym amt pr ts n i st).trades →
      t ∈ st.trades ∨ t.quantity = amt / pr := by
  intro n
  induction n with
  | zero => exact fun i st t ht => Or.inl ht
  | succ n ih =>
      intro i st t ht
      simp only [buySlices] at ht
      split_ifs at ht with hc hr
      · exact Or.inl ht
      · rcases ih (i + 1) _ t ht with h | h
        · rcases List.mem_append.mp h with h' | h'
          · exact Or.inl h'
          · rcases List.mem_singleton.mp h' with rfl
            exact Or.inr rfl
        · exact Or.inr h
      · exact ih (i + 1) st t ht

theorem sellSlices_trades_quantity_le (limits : RiskLimits) (sym : String)
    (sq pr : ℚ) (ts : ℤ) :
    ∀ (n i : ℕ) (st : EngineState) (t : Trade),
      t ∈ (sellSlices limits sym sq pr ts n i st).trades →
      t ∈ st.trades ∨ t.quantity ≤ sq := by
  intro n
  induction n with
  | zero => exact fun i st t ht => Or.inl ht
  | succ n ih =>
      intro i st t ht
      simp only [sellSlices] at ht
      split_ifs at ht with hg
      · rcases ih (i + 1) _ t ht with h | h
        · rcases List.mem_append.mp h with h' | h'
          · exact Or.inl h'
          · rcases List.mem_singleton.mp h' with rfl
            exact Or.inr (min_le_left _ _)
        · exact Or.inr h
      · exact ih (i + 1) st t ht

theorem executeSell_trades_quantity (limits : RiskLimits) (sig : TradeSignal)
    (u : PriceUpdate) (st : EngineState) :
    ∀ t ∈ (executeSell limits sig u st).trades,
      t ∈ st.trades ∨
      t.quantity ≤ holdingsOf st.portfolio sig.symbol * sig.percentage / 5 := by
  intro t
  cases hl : alookup st.portfolio.assets sig.symbol with
  | none =>
      intro ht
      simp only [executeSell, hl] at ht
      exact Or.inl ht
  | some a =>
      intro ht
      simp only [executeSell, hl] at ht
      by_cases h0 : a.holdings ≤ 0
      · rw [if_pos h0] at ht
        exact Or.inl ht
      · rw [if_neg h0] at ht
        have hh : holdingsOf st.portfolio sig.symbol = a.holdings := by
          simp [holdingsOf, hl]
        rw [hh]
        exact sellSlices_trades_quantity_le limits sig.symbol
          (a.holdings * sig.percentage / 5) u.price u.timestamp 5 0 st t ht

/-- C1: for a BUY signal, if before execution cash ≥ 0, the target asset's
holdings and every asset's price are ≥ 0, the signal's percentage is ≥ 0
and the update price is > 0, then the slice loop stops issuing further
slices as soon as cash is below the per-slice notional (the loop body
returns its state unchanged), and after the whole slice loop the
portfolio's cash is ≥ 0. -/
theorem executeBuy_cash_safety (limits : RiskLimits) (sig : TradeSignal)
    (u : PriceUpdate) (st : EngineState)
    (hcash : 0 ≤ st.portfolio.cash)
    (hhold : 0 ≤ holdingsOf st.portfolio sig.symbol)
    (hprices : ∀ kv ∈ st.portfolio.assets, 0 ≤ kv.2.price)
    (hpct : 0 ≤ sig.percentage)
    (hup : 0 < u.price) :
    (∀ (n i : ℕ) (s : EngineState),
        s.portfolio.cash < calculateTotalValue st.portfolio (some u) * sig.percentage / 5 →
        buySlices limits sig.symbol
          (calculateTotalValue st.portfolio (some u) * sig.percentage / 5)
          u.price u.timestamp (n + 1) i s = s) ∧
    0 ≤ (executeBuy limits sig u st).portfolio.cash := by
  constructor
  · intro n i s hlt
    simp only [buySlices, if_pos hlt]
  · unfold executeBuy
    split
    · exact hcash
    · exact buySlices_cash_nonneg limits sig.symbol _ u.price u.timestamp 5 0 st hcash

/-- Witness for C1: the spec's scenario — cash 1000, an asset priced 210,
`percentage = 1`, `maxTradeSize = 10000` — ends with cash ≥ 0. -/
theorem executeBuy_cash_safety_witness :
    0 ≤ (executeBuy { maxPositionSize := 1000000, maxDailyLoss := 0, maxTradeSize := 10000 }
        { symbol := "BTCUSDT", action := Side.buy, percentage := 1,
          reason := Reason.dropped 0 }
        { symbol := "BTCUSDT", price := 210, timestamp := 0 }
        { portfolio :=
            { cash := 1000, assets := [("BTCUSDT", ⟨"BTCUSDT", 210, 1⟩)] },
          trades := [] }).portfolio.cash :=
  (executeBuy_cash_safety
      { maxPositionSize := 1000000, maxDailyLoss := 0, maxTradeSize := 10000 }
      { symbol := "BTCUSDT", action := Side.buy, percentage := 1,
        reason := Reason.dropped 0 }
      { symbol := "BTCUSDT", price := 210, timestamp := 0 }
      { portfolio := { cash := 1000, assets := [("BTCUSDT", ⟨"BTCUSDT", 210, 1⟩)] },
        trades := [] }
      (by norm_num) (by decide) (by decide) (by norm_num) (by norm_num)).2

/-- C2: for a SELL signal, if the target asset's holdings are ≥ 0 before
execution they stay ≥ 0 after the whole slice loop and after every
intermediate slice (any suffix of the loop started from a non-negative
state); each executed slice trades exactly
`min (sellQuantity/5) (remaining holdings)` (the one-step unfolding of the
loop); and the spec's scenario — holdings 50, percentage 0.20, price 100,
permissive limits — executes exactly 5 slices of quantity 2, leaving
holdings 40 and cash increased by 1000. -/
theorem executeSell_holdings_safety (limits : RiskLimits) (sig : TradeSignal)
    (u : PriceUpdate) (st : EngineState)
    (h0 : 0 ≤ holdingsOf st.portfolio sig.symbol) :
    0 ≤ holdingsOf (executeSell limits sig u st).portfolio sig.symbol ∧
    (∀ (sq prc : ℚ) (ts : ℤ) (n i : ℕ) (s : EngineState),
        0 ≤ holdingsOf s.portfolio sig.symbol →
        0 ≤ holdingsOf (sellSlices limits sig.symbol sq prc ts n i s).portfolio
            sig.symbol) ∧
    (∀ (sq prc : ℚ) (ts : ℤ) (n i : ℕ) (s : EngineState) (q : ℚ),
        q = min sq (holdingsOf s.portfolio sig.symbol) →
        0 < q → riskCheck limits sig.symbol q prc = true →
        sellSlices limits sig.symbol sq prc ts (n + 1) i s =
          sellSlices limits sig.symbol sq prc ts n (i + 1)
            { portfolio :=
                setHoldings { s.portfolio with cash := s.portfolio.cash + q * prc }
                  sig.symbol (holdingsOf s.portfolio sig.symbol - q),
              trades := s.trades ++
                [{ symbol := sig.symbol, side := Side.sell, quantity := q,
                   price := prc, timestamp := ts + (i : ℤ) * 60000 }] }) ∧
    executeSell { maxPositionSize := 100, maxDailyLoss := 0, maxTradeSize := 10000 }
        { symbol := "ETHUSDT", action := Side.sell, percentage := 1/5,
          reason := Reason.rose 0 }
        { symbol := "ETHUSDT", price := 100, timestamp := 0 }
        { portfolio := { cash := 0, assets := [("ETHUSDT", ⟨"ETHUSDT", 100, 50⟩)] },
          trades := [] } =
      { portfolio := { cash := 1000, assets := [("ETHUSDT", ⟨"ETHUSDT", 100, 40⟩)] },
        trades :=
          [⟨"ETHUSDT", Side.sell, 2, 100, 0⟩, ⟨"ETHUSDT", Side.sell, 2, 100, 60000⟩,
           ⟨"ETHUSDT", Side.sell, 2, 100, 120000⟩,
           ⟨"ETHUSDT", Side.sell, 2, 100, 180000⟩,
           ⟨"ETHUSDT", Side.sell, 2, 100, 240000⟩] } := by
  refine ⟨?_,
    fun sq prc ts n i s hs =>
      sellSlices_holdings_nonneg limits sig.symbol sq prc ts n i s hs,
    ?_, by
    norm_num [executeSell, sellSlices, holdingsOf, setHoldings, setAssetsHoldings,
      riskCheck, alookup, List.find?, min_def]⟩
  · unfold executeSell
    split
    · exact h0
    · split_ifs
      · exact h0
      · exact sellSlices_holdings_nonneg limits sig.symbol _ u.price u.timestamp 5 0 st h0
  · intro sq prc ts n i s q hq hqpos hrc
    subst hq
    simp only [sellSlices]
    rw [if_pos ⟨hqpos, hrc⟩]

/-- Witness for C2: the scenario state itself has holdings ≥ 0 before and
after the SELL execution. -/
theorem executeSell_holdings_safety_witness :
    0 ≤ holdingsOf (executeSell
        { maxPositionSize := 100, maxDailyLoss := 0, maxTradeSize := 10000 }
        { symbol := "ETHUSDT", action := Side.sell, percentage := 1/5,
          reason := Reason.rose 0 }
        { symbol := "ETHUSDT", price := 100, timestamp := 0 }
        { portfolio := { cash := 0, assets := [("ETHUSDT", ⟨"ETHUSDT", 100, 50⟩)] },
          trades := [] }).portfolio "ETHUSDT" :=
  (executeSell_holdings_safety
      { maxPositionSize := 100, maxDailyLoss := 0, maxTradeSize := 10000 }
      { symbol := "ETHUSDT", action := Side.sell, percentage := 1/5,
        reason := Reason.rose 0 }
      { symbol := "ETHUSDT", price := 100, timestamp := 0 }
      { portfolio := { cash := 0, assets := [("ETHUSDT", ⟨"ETHUSDT", 100, 50⟩)] },
        trades := [] }
      (by decide)).1

/-- C3: the simulation risk check is a pure predicate of (symbol, quantity,
price) alone: it is true exactly when `quantity × price ≤ maxTradeSize`
and `quantity ≤ maxPositionSize` (hence false whenever either bound is
exceeded, whatever the other parameters), and its value does not depend on
the symbol. -/
theorem riskCheck_policy (limits : RiskLimits) (sym sym' : String) (q p : ℚ) :
    (riskCheck limits sym q p = true ↔
      q * p ≤ limits.maxTradeSize ∧ q ≤ limits.maxPositionSize) ∧
    riskCheck limits sym q p = riskCheck limits sym' q p := by
  exact ⟨by simp [riskCheck], rfl⟩

/-- C7: the slicing logic divides the target by the hardcoded constant 5
and appends at most 5 trades per signal, and the `twapSlices` field of the
configuration has no effect on how an update is processed: `processUpdate`
is unchanged under any rewrite of `twapSlices`, BUY and SELL each append
at most 5 trades, every BUY trade the slice loop appends has quantity
`(portfolioValue × percentage / 5) / price`, and every SELL trade it
appends has quantity at most `(holdings × percentage) / 5` (the per-slice
clamp can only shrink it). -/
theorem slicing_hardcoded_five (cfg : StrategyConfig) (n : ℚ)
    (limits : RiskLimits) (s : BacktestState) (u : PriceUpdate)
    (sig : TradeSignal) (st : EngineState) :
    processUpdate { cfg with twapSlices := n } limits s u =
      processUpdate cfg limits s u ∧
    (executeBuy limits sig u st).trades.length ≤ st.trades.length + 5 ∧
    (executeSell limits sig u st).trades.length ≤ st.trades.length + 5 ∧
    (∀ t ∈ (executeBuy limits sig u st).trades,
        t ∈ st.trades ∨
        t.quantity =
          (calculateTotalValue st.portfolio (some u) * sig.percentage / 5) / u.price) ∧
    (∀ t ∈ (executeSell limits sig u st).trades,
        t ∈ st.trades ∨
        t.quantity ≤ holdingsOf st.portfolio sig.symbol * sig.percentage / 5) := by
  refine ⟨rfl, ?_, ?_, ?_, executeSell_trades_quantity limits sig u st⟩
  · unfold executeBuy
    split
    · omega
    · exact buySlices_trades_length limits sig.symbol _ u.price u.timestamp 5 0 st
  · unfold executeSell
    split
    · omega
    · split_ifs
      · omega
      · exact sellSlices_trades_length limits sig.symbol _ u.price u.timestamp 5 0 st
  · intro t ht
    revert ht
    unfold executeBuy
    split
    · exact fun ht => Or.inl ht
    · exact fun ht => buySlices_trades_mem limits sig.symbol _ u.price u.timestamp 5 0 st t ht

theorem assetPrices_setAssetsHoldings (s : String) (h : ℚ)
    (l : List (String × Asset)) :
    (setAssetsHoldings s h l).map (fun kv => (kv.1, kv.2.symbol, kv.2.price)) =
      l.map (fun kv => (kv.1, kv.2.symbol, kv.2.price)) := by
  induction l with
  | nil => rfl
  | cons kv rest ih =>
      by_cases hk : kv.1 = s
      · have hb : (kv.1 == s) = true := by simp [hk]
        simp [setAssetsHoldings, hb]
      · have hb : (kv.1 == s) = false := by simp [hk]
        simp [setAssetsHoldings, hb, ih]

theorem assetPrices_setHoldings (p : Portfolio) (s : String) (h : ℚ) :
    assetPrices (setHoldings p s h) = assetPrices p :=
  assetPrices_setAssetsHoldings s h p.assets

theorem assetPrices_buySlices (limits : RiskLimits) (sym : String)
    (amt pr : ℚ) (ts : ℤ) :
    ∀ (n i : ℕ) (st : EngineState),
      assetPrices (buySlices limits sym amt pr ts n i st).portfolio =
        assetPrices st.portfolio := by
  intro n
  induction n with
  | zero => exact fun i st => rfl
  | succ n ih =>
      intro i st
      simp only [buySlices]
      split_ifs with hc hr
      · rfl
      · rw [ih]
        exact assetPrices_setHoldings _ sym _
      · exact ih (i + 1) st

theorem assetPrices_sellSlices (limits : RiskLimits) (sym : String)
    (sq pr : ℚ) (ts : ℤ) :
    ∀ (n i : ℕ) (st : EngineState),
      assetPrices (sellSlices limits sym sq pr ts n i st).portfolio =
        assetPrices st.portfolio := by
  intro n
  induction n with
  | zero => exact fun i st => rfl
  | succ n ih =>
      intro i st
      simp only [sellSlices]
      split_ifs with hg
      · rw [ih]
        exact assetPrices_setHoldings _ sym _
      · exact ih (i + 1) st

theorem assetPrices_executeBuy (limits : RiskLimits) (sig : TradeSignal)
    (u : PriceUpdate) (st : EngineState) :
    assetPrices (executeBuy limits sig u st).portfolio = assetPrices st.portfolio := by
  unfold executeBuy
  split
  · rfl
  · exact assetPrices_buySlices limits sig.symbol _ u.price u.timestamp 5 0 st

theorem assetPrices_executeSell (limits : RiskLimits) (sig : TradeSignal)
    (u : PriceUpdate) (st : EngineState) :
    assetPrices (executeSell limits sig u st).portfolio = assetPrices st.portfolio := by
  unfold executeSell
  split
  · rfl
  · split_ifs
    · rfl
    · exact assetPrices_sellSlices limits sig.symbol _ u.price u.timestamp 5 0 st

theorem assetPrices_processUpdate (cfg : StrategyConfig) (limits : RiskLimits)
    (s : BacktestState) (u : PriceUpdate) :
    assetPrices (processUpdate cfg limits s u).engine.portfolio =
      assetPrices s.engine.portfolio := by
  unfold processUpdate
  rcases DropRiseStrategy.onUpdate cfg s.strat u with ⟨sig, strat'⟩
  cases sig with
  | none => rfl
  | some signal =>
      dsimp only
      split_ifs
      · exact assetPrices_executeBuy limits signal u s.engine
      · exact assetPrices_executeSell limits signal u s.engine

theorem assetPrices_foldl (cfg : StrategyConfig) (limits : RiskLimits) :
    ∀ (us : List PriceUpdate) (s : BacktestState),
      assetPrices (us.foldl (processUpdate cfg limits) s).engine.portfolio =
        assetPrices s.engine.portfolio := by
  intro us
  induction us with
  | nil => exact fun s => rfl
  | cons u rest ih =>
      intro s
      rw [List.foldl_cons, ih, assetPrices_processUpdate]

/-- C10: no engine operation mutates an asset's price (or symbol, or the
key set): `processUpdate` and a whole `runCore` fold preserve the
portfolio's price data, so the `finalPortfolio` of `runBacktest` carries
exactly the construction-time asset prices; and `calculateTotalValue` is
independent of the price update passed to it, valuing the portfolio from
its own stored prices. -/
theorem prices_frame (cfg : StrategyConfig) (limits : RiskLimits)
    (s : BacktestState) (u : PriceUpdate) (p : Portfolio)
    (us : List PriceUpdate) (u1 u2 : Option PriceUpdate) :
    assetPrices (processUpdate cfg limits s u).engine.portfolio =
      assetPrices s.engine.portfolio ∧
    assetPrices (runCore limits p us).engine.portfolio = assetPrices p ∧
    assetPrices (runBacktest limits p us).finalPortfolio = assetPrices p ∧
    calculateTotalValue p u1 = calculateTotalValue p u2 := by
  refine ⟨assetPrices_processUpdate cfg limits s u, ?_, ?_, rfl⟩
  · exact assetPrices_foldl backtestConfig limits us _
  · show assetPrices (runCore limits p us).engine.portfolio = assetPrices p
    exact assetPrices_foldl backtestConfig limits us _

/-- C9: the Sharpe ratio is exactly 0 when the trade log has length 0 or 1,
exactly 0 when the standard deviation of the per-trade return series is 0,
and otherwise equals `mean/stddev · √252` over that series. -/
theorem calculateSharpeRatio_spec (p : Portfolio) (trades : List Trade) :
    (trades.length = 0 ∨ trades.length = 1 → calculateSharpeRatio p trades = 0) ∧
    (2 ≤ trades.length →
      Real.sqrt ((returnsVariance (calculateReturns p trades) : ℚ) : ℝ) = 0 →
      calculateSharpeRatio p trades = 0) ∧
    (2 ≤ trades.length →
      Real.sqrt ((returnsVariance (calculateReturns p trades) : ℚ) : ℝ) ≠ 0 →
      calculateSharpeRatio p trades =
        ((avgReturn (calculateReturns p trades) : ℝ) /
            Real.sqrt ((returnsVariance (calculateReturns p trades) : ℚ) : ℝ)) *
          Real.sqrt 252) := by
  refine ⟨fun h => ?_, fun h2 hz => ?_, fun h2 hnz => ?_⟩
  · have hlt : trades.length < 2 := by rcases h with h | h <;> omega
    simp [calculateSharpeRatio, hlt]
  · have hlt : ¬ trades.length < 2 := by omega
    simp only [calculateSharpeRatio, if_neg hlt]
    rw [if_neg (by simpa using hz)]
  · have hlt : ¬ trades.length < 2 := by omega
    simp only [calculateSharpeRatio, if_neg hlt]
    rw [if_pos hnz]

/-- Witness for C9: an empty trade log yields a Sharpe ratio of exactly 0. -/
theorem calculateSharpeRatio_spec_witness :
    calculateSharpeRatio { cash := 0, assets := [] } [] = 0 :=
  (calculateSharpeRatio_spec { cash := 0, assets := [] } []).1 (Or.inl rfl)

/-- C8: in the reference-semantics (heap) model, the engine's constructor
allocates a fresh portfolio object — a JSON round-trip that preserves the
caller's value exactly — at a reference distinct from the caller's, and a
whole backtest run writes only through the engine's reference, so the
caller's portfolio object is unchanged after the run. -/
theorem constructor_deep_copy (limits : RiskLimits) (h : Heap)
    (callerRef : ℕ) (us : List PriceUpdate) (href : callerRef < h.length) :
    (∀ q : Portfolio, jsonDeepCopy q = q) ∧
    (constructOnHeap h callerRef).2 ≠ callerRef ∧
    (runOnHeap limits h callerRef us).1.get? callerRef = h.get? callerRef := by
  refine ⟨fun q => ?_, ?_, ?_⟩
  · cases q with
    | mk cash assets => simp [jsonDeepCopy]
  · exact fun e => absurd (e ▸ href) (lt_irrefl _)
  · have key : ∀ (vs : List PriceUpdate) (s : Heap × StrategyState × List Trade),
        s.1.get? callerRef = h.get? callerRef →
        ((vs.foldl (stepOnHeap limits h.length) s).1).get? callerRef =
          h.get? callerRef := by
      intro vs
      induction vs with
      | nil => exact fun s hs => hs
      | cons v rest ih =>
          intro s hs
          rw [List.foldl_cons]
          apply ih
          show ((s.1.set h.length _).get? callerRef) = _
          rw [List.get?_set_ne _ _ (ne_of_gt href)]
          exact hs
    show ((us.foldl (stepOnHeap limits h.length)
        (h ++ [jsonDeepCopy (h.getD callerRef { cash := 0, assets := [] })],
         StrategyState.init, [])).1).get? callerRef = h.get? callerRef
    exact key us _ (List.get?_append href)

/-- Witness for C8: a one-object heap holding a portfolio with cash 5 is
unchanged at the caller's reference after a full run on one update. -/
theorem constructor_deep_copy_witness :
    (runOnHeap { maxPositionSize := 1, maxDailyLoss := 0, maxTradeSize := 1 }
        [{ cash := 5, assets := [] }] 0
        [{ symbol := "BTCUSDT", price := 100, timestamp := 0 }]).1.get? 0 =
      [({ cash := 5, assets := [] } : Portfolio)].get? 0 :=
  (constructor_deep_copy { maxPositionSize := 1, maxDailyLoss := 0, maxTradeSize := 1 }
      [{ cash := 5, assets := [] }] 0
      [{ symbol := "BTCUSDT", price := 100, timestamp := 0 }] (by decide)).2.2

end BacktestingEngine
